import Mathlib

/-!
Shallow embedding of `BlueprintAnalysis.py` (classes `BlueprintOrderAnalysis` and
`InventoryOptimization`) together with theorems checking the natural-language
specification against the code.

Conventions of the embedding:
* DataFrames become lists of records; keyed frames become association lists.
* `groupby` produces its group keys in ascending sorted order (pandas default
  `sort=True`); this is modelled by `sortedKeys` / `sortedPairKeys`.
* Timestamps are epoch seconds; `pd.to_datetime(...).dt.hour` becomes
  `ts / 3600 % 24` and `.dt.dayofweek` (Monday = 0, and 1970-01-01 was a
  Thursday, day 3) becomes `(ts / 86400 + 3) % 7`.
* Monetary amounts and quantities in the order-analysis half are rationals so
  that everything is executable; the inventory half uses real numbers because
  the EOQ / safety-stock formulas involve square roots.
-/

/-- One row of the `orders_df` input table (§6: order_id, customer_id,
products, total_amount, timestamp). -/
structure OrderRow where
  order_id : Nat
  customer_id : Nat
  products : List Nat
  total_amount : ℚ
  timestamp : Nat
deriving DecidableEq

/-- `pd.to_datetime(enriched['timestamp']).dt.hour` for an epoch-second stamp. -/
def hourOf (ts : Nat) : Nat := ts / 3600 % 24

/-- `pd.to_datetime(enriched['timestamp']).dt.dayofweek` (Monday = 0). -/
def dowOf (ts : Nat) : Nat := (ts / 86400 + 3) % 7

/-- A row of the enriched order frame: the original columns plus `hour`,
`day_of_week` and the merged customer-history columns `order_id_history`
(per-customer order count) and `total_amount_history` (per-customer mean). -/
structure EnrichedOrder where
  order_id : Nat
  customer_id : Nat
  products : List Nat
  total_amount : ℚ
  timestamp : Nat
  hour : Nat
  day_of_week : Nat
  order_id_history : Nat
  total_amount_history : ℚ
deriving DecidableEq

/-- Insert a key into a strictly ascending list, keeping it strictly
ascending (models the sorted unique group keys produced by `groupby`). -/
def insertUniqNat (x : Nat) : List Nat → List Nat
  | [] => [x]
  | y :: l =>
    if x = y then y :: l
    else if x < y then x :: y :: l
    else y :: insertUniqNat x l

/-- The ascending list of distinct keys of `l` (pandas `groupby` key order). -/
def sortedKeys (l : List Nat) : List Nat := l.foldr insertUniqNat []

/-- `groupby('customer_id').agg({'order_id': 'count'})` for one customer. -/
def customer_count (orders : List OrderRow) (c : Nat) : Nat :=
  (orders.filter fun o => o.customer_id = c).length

/-- `groupby('customer_id').agg({'total_amount': 'mean'})` for one customer. -/
def customer_mean (orders : List OrderRow) (c : Nat) : ℚ :=
  ((orders.filter fun o => o.customer_id = c).map OrderRow.total_amount).sum /
    (customer_count orders c : ℚ)

/-- The `customer_history` frame of `_enrich_order_data` (line 82): one row per
distinct customer id (ascending), carrying order count and mean amount. -/
def customer_history (orders : List OrderRow) : List (Nat × Nat × ℚ) :=
  (sortedKeys (orders.map OrderRow.customer_id)).map fun c =>
    (c, customer_count orders c, customer_mean orders c)

/-- Glue an order row to a customer-history row (the column concatenation
performed by `merge(..., suffixes=('', '_history'))`). -/
def joinEnriched (o : OrderRow) (h : Nat × Nat × ℚ) : EnrichedOrder :=
  ⟨o.order_id, o.customer_id, o.products, o.total_amount, o.timestamp,
   hourOf o.timestamp, dowOf o.timestamp, h.2.1, h.2.2⟩

/-- `_enrich_order_data`: add the time columns and inner-merge the customer
history back on `customer_id`.  The inner merge is modelled exactly: each left
row is joined against every matching right row, in left-row order (pandas
preserves the order of the left keys for `how='inner'`), so it could in
principle drop or duplicate rows. -/
def enrich_order_data (orders : List OrderRow) : List EnrichedOrder :=
  orders.flatMap fun o =>
    ((customer_history orders).filter fun h => h.1 = o.customer_id).map (joinEnriched o)

/-- The intended per-row enrichment: the row itself plus its customer's
aggregates, used to state that the merge is a 1:1 row map. -/
def enrichRow (orders : List OrderRow) (o : OrderRow) : EnrichedOrder :=
  joinEnriched o (o.customer_id, customer_count orders o.customer_id,
    customer_mean orders o.customer_id)

/-- The fraud feature vector of one enriched order (lines 96-102). -/
def featuresOf (e : EnrichedOrder) : List ℚ :=
  [e.total_amount, (e.hour : ℚ), (e.day_of_week : ℚ),
   (e.order_id_history : ℚ), e.total_amount_history]

/-- `_detect_fraud`: the `IsolationForest.fit_predict` call is an external
library function; it is passed in as `detect`, applied to the per-row feature
matrix. -/
def detect_fraud (detect : List (List ℚ) → List Int)
    (enriched : List EnrichedOrder) : List Int :=
  detect (enriched.map featuresOf)

/-- The exploded `(order, product)` relation, keeping only the product column
(`orders_df.explode('products')`). -/
def exploded_products (rows : List EnrichedOrder) : List Nat :=
  rows.flatMap EnrichedOrder.products

/-- `explode('products').groupby('products').agg({'order_id': 'count'})`:
one row per distinct product in ascending product order, with the number of
exploded rows for that product. -/
def grouped_demand (rows : List EnrichedOrder) : List (Nat × Nat) :=
  (sortedKeys (exploded_products rows)).map fun p =>
    (p, (exploded_products rows).count p)

/-- Stable insertion for a descending sort on the count component: an element
is placed before the first strictly smaller count and after earlier
equal-or-larger counts, which is exactly `nlargest`'s `keep='first'` tie
behaviour. -/
def insertCountDesc (x : Nat × Nat) : List (Nat × Nat) → List (Nat × Nat)
  | [] => [x]
  | y :: l => if y.2 ≤ x.2 then x :: y :: l else y :: insertCountDesc x l

/-- Stable descending sort by count (the ordering underlying `nlargest`). -/
def sortCountDesc (l : List (Nat × Nat)) : List (Nat × Nat) :=
  l.foldr insertCountDesc []

/-- The `inventory_metrics` mapping returned by `_analyze_inventory_impact`. -/
structure InventoryImpact where
  high_demand_products : List Nat
  total_product_demand : Nat
  demand_distribution : List (Nat × Nat)
deriving DecidableEq

/-- `_analyze_inventory_impact` (lines 110-124). -/
def analyze_inventory_impact (rows : List EnrichedOrder) : InventoryImpact :=
  ⟨((sortCountDesc (grouped_demand rows)).take 5).map Prod.fst,
   ((grouped_demand rows).map Prod.snd).sum,
   grouped_demand rows⟩

/-- The result mapping of `process_orders`. -/
structure ProcessResult where
  fraud_detection : List Int
  inventory_impact : InventoryImpact
deriving DecidableEq

/-- `process_orders` (lines 11-35), with the isolation-forest scorer passed in
as `detect`. -/
def process_orders (detect : List (List ℚ) → List Int)
    (orders : List OrderRow) : ProcessResult :=
  ⟨detect_fraud detect (enrich_order_data orders),
   analyze_inventory_impact (enrich_order_data orders)⟩

/-- Number of exploded `(order, product)` rows of the raw input that touch a
given product. -/
def demand_count (orders : List OrderRow) (p : Nat) : Nat :=
  (orders.flatMap OrderRow.products).count p

/-- One row of the `historical_orders` table of `forecast_demand`. -/
structure HistRow where
  date : Nat
  product_category : Nat
  quantity : ℚ
deriving DecidableEq

/-- Insert a `(date, category)` pair into a lexicographically strictly
ascending list (the group keys of `groupby(['date', 'product_category'])`). -/
def insertUniqPair (x : Nat × Nat) : List (Nat × Nat) → List (Nat × Nat)
  | [] => [x]
  | y :: l =>
    if x = y then y :: l
    else if x.1 < y.1 ∨ (x.1 = y.1 ∧ x.2 < y.2) then x :: y :: l
    else y :: insertUniqPair x l

/-- Distinct `(date, category)` pairs in ascending lexicographic order. -/
def sortedPairKeys (l : List (Nat × Nat)) : List (Nat × Nat) :=
  l.foldr insertUniqPair []

/-- `daily_demand` (lines 42-43): quantity summed per `(date, category)`. -/
def daily_demand (hist : List HistRow) : List ((Nat × Nat) × ℚ) :=
  (sortedPairKeys (hist.map fun r => (r.date, r.product_category))).map fun k =>
    (k, ((hist.filter fun r => r.date = k.1 ∧ r.product_category = k.2).map
          HistRow.quantity).sum)

/-- First-occurrence deduplication (pandas `Series.unique` keeps the order of
appearance), with an accumulator of already seen keys. -/
def dedupFirstAux (seen : List Nat) : List Nat → List Nat
  | [] => []
  | x :: l => if x ∈ seen then dedupFirstAux seen l else x :: dedupFirstAux (x :: seen) l

/-- First-occurrence deduplication of a key list. -/
def dedupFirst (l : List Nat) : List Nat := dedupFirstAux [] l

/-- `daily_demand['product_category'].unique()`. -/
def categoriesOf (hist : List HistRow) : List Nat :=
  dedupFirst ((daily_demand hist).map fun row => row.1.2)

/-- The demand series of one category, in the date order of `daily_demand`. -/
def seriesFor (hist : List HistRow) (cat : Nat) : List ℚ :=
  ((daily_demand hist).filter fun row => row.1.2 = cat).map Prod.snd

/-- `np.polyfit(range(n), ys, 1)`: ordinary least squares for a degree-1
polynomial over positions `0 .. n-1`.  A rank-deficient system (a single data
point) gets the minimum-norm solution slope `0`, intercept `y₀`, matching
`numpy.linalg.lstsq`. -/
def polyfit1 (ys : List ℚ) : ℚ × ℚ :=
  let n : ℚ := (ys.length : ℚ)
  let xs : List ℚ := (List.range ys.length).map fun i => (i : ℚ)
  let sx := xs.sum
  let sy := ys.sum
  let sxx := (xs.map fun x => x * x).sum
  let sxy := ((xs.zip ys).map fun q => q.1 * q.2).sum
  let d := n * sxx - sx * sx
  let a := if d = 0 then 0 else (n * sxy - sx * sy) / d
  let b := if n = 0 then 0 else (sy - a * sx) / n
  (a, b)

/-- The extrapolated values `np.poly1d(trend)(range(n, n + p))` for one
category (lines 52-54). -/
def forecastFor (hist : List HistRow) (p : Nat) (cat : Nat) : List ℚ :=
  (List.range p).map fun i =>
    (polyfit1 (seriesFor hist cat)).1 *
      ((((seriesFor hist cat).length + i : Nat) : ℚ)) +
      (polyfit1 (seriesFor hist cat)).2

/-- `forecast_demand` (lines 37-58): category → forecast sequence. -/
def forecast_demand (hist : List HistRow) (p : Nat) : List (Nat × List ℚ) :=
  (categoriesOf hist).map fun c => (c, forecastFor hist p c)

/-- The metrics mapping of `analyze_subscription_patterns`: its field names
are exactly the keys of the returned dict. -/
structure SubscriptionMetrics where
  active_subscriptions : Nat
  churn_risk : ℚ
  subscription_health : ℚ

/-- Modelled from the spec: `_calculate_churn_risk` and
`_analyze_subscription_health` are called (lines 67-68) but defined nowhere in
the repository; the spec treats them as pluggable deterministic scoring
functions of the subscription set, so they are taken here as explicit
function parameters `churn` and `health`. -/
def analyze_subscription_patterns {σ : Type} (churn health : List σ → ℚ)
    (subs : List σ) : SubscriptionMetrics :=
  ⟨subs.length, churn subs, health subs⟩

/-- One row of the `sales_history` table (§6: product, date, quantity). -/
structure SaleRow where
  product : Nat
  date : Nat
  quantity : ℝ

/-- One row of the keyed `inventory_data` table (§6: quantity_on_hand,
unit_cost, ordering_cost, max_stock_level, keyed by product). -/
structure InvRow where
  product : Nat
  quantity_on_hand : ℝ
  unit_cost : ℝ
  ordering_cost : ℝ
  max_stock_level : ℝ

/-- The constructor configuration of `InventoryOptimization`. -/
structure InvConfig where
  lead_time_days : Nat
  safety_stock_factor : ℝ

/-- The quantity column restricted to one product
(`sales_history[sales_history['product'] == product]['quantity']`). -/
noncomputable def product_quantities (hist : List SaleRow) (p : Nat) : List ℝ :=
  (hist.filter fun s => s.product = p).map SaleRow.quantity

/-- pandas `.mean()` of a list (sum over length; the empty list, a 0/0 in
pandas, is mapped to 0 by Lean's division-by-zero convention). -/
noncomputable def listMean (l : List ℝ) : ℝ := l.sum / (l.length : ℝ)

/-- pandas `.std()`: the sample standard deviation with `ddof=1`.  For a
single data point pandas produces NaN (0/0); the real-number model collapses
that case to `0` (Lean division by zero), the fallback the spec asks to
document. -/
noncomputable def sampleStd (l : List ℝ) : ℝ :=
  Real.sqrt ((l.map fun x => (x - listMean l) ^ 2).sum / ((l.length : ℝ) - 1))

/-- The per-product fields computed by `calculate_reorder_points`. -/
structure RPInfo where
  reorder_point : ℝ
  safety_stock : ℝ
  avg_daily_demand : ℝ

/-- The body of the `calculate_reorder_points` loop for one product. -/
noncomputable def rpRow (cfg : InvConfig) (hist : List SaleRow) (p : Nat) : RPInfo :=
  let dd := listMean (product_quantities hist p)
  let ss := sampleStd (product_quantities hist p) * cfg.safety_stock_factor *
    Real.sqrt (cfg.lead_time_days : ℝ)
  ⟨dd * (cfg.lead_time_days : ℝ) + ss, ss, dd⟩

/-- `calculate_reorder_points` (lines 132-155): per-product mapping in the
order of the inventory index. -/
noncomputable def calculate_reorder_points (cfg : InvConfig) (inv : List InvRow)
    (hist : List SaleRow) : List (Nat × RPInfo) :=
  inv.map fun row => (row.product, rpRow cfg hist row.product)

/-- `annual_demand` as computed at lines 165-166: the product's total
historical quantity times `365 / len(sales_history)` — the divisor is the
row count of the whole sales-history table. -/
noncomputable def annual_demand (hist : List SaleRow) (p : Nat) : ℝ :=
  ((hist.filter fun s => s.product = p).map SaleRow.quantity).sum *
    (365 / (hist.length : ℝ))

/-- Modelled from the spec: `annual_demand = total historical quantity scaled
to a 365-day year by the ratio 365/length-of-history-window (in days)`.  The
window length in days is the number of distinct dates in the history.  This
definition follows the spec's words and exists only to be compared against
`annual_demand`, which follows the code. -/
noncomputable def annual_demand_spec (hist : List SaleRow) (p : Nat) : ℝ :=
  ((hist.filter fun s => s.product = p).map SaleRow.quantity).sum *
    (365 / ((sortedKeys (hist.map SaleRow.date)).length : ℝ))

/-- The EOQ formula of line 171:
`np.sqrt((2 * annual_demand * ordering_cost) / (unit_cost * carrying_cost_rate))`,
read over the real numbers. -/
noncomputable def eoq (D S c r : ℝ) : ℝ := Real.sqrt ((2 * D * S) / (c * r))

/-- `_calculate_total_cost` (lines 183-198): ordering cost plus carrying cost
at order quantity `Q`. -/
noncomputable def calculate_total_cost (D Q S c r : ℝ) : ℝ :=
  (D / Q) * S + (Q / 2) * c * r

/-- The per-product fields computed by `optimize_order_quantities`. -/
structure OptQ where
  eoq : ℝ
  annual_demand : ℝ
  total_annual_cost : ℝ

/-- The body of the `optimize_order_quantities` loop for one product row. -/
noncomputable def optQRow (hist : List SaleRow) (r : ℝ) (row : InvRow) : OptQ :=
  let D := annual_demand hist row.product
  let e := eoq D row.ordering_cost row.unit_cost r
  ⟨e, D, calculate_total_cost D e row.ordering_cost row.unit_cost r⟩

/-- `optimize_order_quantities` (lines 157-181). -/
noncomputable def optimize_order_quantities (inv : List InvRow)
    (hist : List SaleRow) (r : ℝ) : List (Nat × OptQ) :=
  inv.map fun row => (row.product, optQRow hist r row)

/-- The action field of a recommendation. -/
inductive RecAction where
  | REORDER
  | REDUCE
deriving DecidableEq

/-- The urgency field of a recommendation. -/
inductive RecUrgency where
  | HIGH
  | MEDIUM
  | LOW
deriving DecidableEq

/-- One recommendation dict of `_generate_recommendations`. -/
structure Recommendation where
  product : Nat
  action : RecAction
  quantity : ℝ
  urgency : RecUrgency

/-- `_generate_recommendations` (lines 235-258): the loop over the inventory
index, with the reorder-point and EOQ dicts abstracted as total mappings
`rp` and `oq`. -/
noncomputable def generate_recommendations (rp oq : Nat → ℝ) :
    List InvRow → List Recommendation
  | [] => []
  | row :: rest =>
    (if row.quantity_on_hand ≤ rp row.product then
      [{ product := row.product, action := RecAction.REORDER,
         quantity := oq row.product,
         urgency := if row.quantity_on_hand = 0 then RecUrgency.HIGH
                    else RecUrgency.MEDIUM }]
    else if row.max_stock_level < row.quantity_on_hand then
      [{ product := row.product, action := RecAction.REDUCE,
         quantity := row.quantity_on_hand - row.max_stock_level,
         urgency := RecUrgency.LOW }]
    else []) ++ generate_recommendations rp oq rest

/-- The spec's description of one product's recommendation, written from the
claim's words: stock at or below the reorder point yields REORDER at the EOQ
(HIGH exactly at zero stock, else MEDIUM); otherwise stock above the maximum
level yields REDUCE by the excess at LOW; otherwise nothing. -/
noncomputable def specRecommendation (rp oq : Nat → ℝ) (row : InvRow) :
    Option Recommendation :=
  if row.quantity_on_hand ≤ rp row.product then
    some { product := row.product, action := RecAction.REORDER,
           quantity := oq row.product,
           urgency := if row.quantity_on_hand = 0 then RecUrgency.HIGH
                      else RecUrgency.MEDIUM }
  else if row.max_stock_level < row.quantity_on_hand then
    some { product := row.product, action := RecAction.REDUCE,
           quantity := row.quantity_on_hand - row.max_stock_level,
           urgency := RecUrgency.LOW }
  else none

/-- `_calculate_inventory_health` (lines 220-233): total value, stock-out
count, overstock count. -/
noncomputable def calculate_inventory_health (inv : List InvRow) : ℝ × Nat × Nat :=
  ((inv.map fun row => row.quantity_on_hand * row.unit_cost).sum,
   (inv.filter fun row => row.quantity_on_hand = 0).length,
   (inv.filter fun row => row.max_stock_level < row.quantity_on_hand).length)

/-- Python-dict lookup for an association list built by repeated assignment:
a later binding of the same key overwrites an earlier one. -/
def dlookup {β : Type} (l : List (Nat × β)) (k : Nat) : Option β :=
  List.lookup k l.reverse

/-- The report mapping of `generate_inventory_report`. -/
structure InventoryReport where
  reorder_points : List (Nat × RPInfo)
  optimal_quantities : List (Nat × OptQ)
  inventory_health : ℝ × Nat × Nat
  recommendations : List Recommendation

/-- `generate_inventory_report` (lines 200-218), at the default
`carrying_cost_rate = 0.2`. -/
noncomputable def generate_inventory_report (cfg : InvConfig) (inv : List InvRow)
    (hist : List SaleRow) : InventoryReport :=
  let rps := calculate_reorder_points cfg inv hist
  let oqs := optimize_order_quantities inv hist 0.2
  { reorder_points := rps
    optimal_quantities := oqs
    inventory_health := calculate_inventory_health inv
    recommendations := generate_recommendations
      (fun p => ((dlookup rps p).map RPInfo.reorder_point).getD 0)
      (fun p => ((dlookup oqs p).map OptQ.eoq).getD 0) inv }

/-- An IEEE-754-style value as handled by numpy float64 arithmetic: a finite
value, a signed infinity, or NaN.  Used to settle how line 171 behaves when
the EOQ divisor is zero — numpy emits a warning and yields a non-finite
value, it does not raise. -/
inductive PyFloat where
  | fin : ℝ → PyFloat
  | inf : PyFloat
  | neginf : PyFloat
  | nan : PyFloat

/-- numpy float64 multiplication. -/
noncomputable def pyMul : PyFloat → PyFloat → PyFloat
  | .fin x, .fin y => .fin (x * y)
  | .fin x, .inf => if 0 < x then .inf else if x < 0 then .neginf else .nan
  | .fin x, .neginf => if 0 < x then .neginf else if x < 0 then .inf else .nan
  | .fin _, .nan => .nan
  | .inf, .fin y => if 0 < y then .inf else if y < 0 then .neginf else .nan
  | .inf, .inf => .inf
  | .inf, .neginf => .neginf
  | .inf, .nan => .nan
  | .neginf, .fin y => if 0 < y then .neginf else if y < 0 then .inf else .nan
  | .neginf, .inf => .neginf
  | .neginf, .neginf => .inf
  | .neginf, .nan => .nan
  | .nan, _ => .nan

/-- numpy float64 division: a zero divisor produces a signed infinity (or NaN
for 0/0) together with a RuntimeWarning — no exception is raised. -/
noncomputable def pyDiv : PyFloat → PyFloat → PyFloat
  | .fin x, .fin y =>
    if y = 0 then (if 0 < x then .inf else if x < 0 then .neginf else .nan)
    else .fin (x / y)
  | .fin _, .inf => .fin 0
  | .fin _, .neginf => .fin 0
  | .fin _, .nan => .nan
  | .inf, .fin y => if 0 ≤ y then .inf else .neginf
  | .inf, .inf => .nan
  | .inf, .neginf => .nan
  | .inf, .nan => .nan
  | .neginf, .fin y => if 0 ≤ y then .neginf else .inf
  | .neginf, .inf => .nan
  | .neginf, .neginf => .nan
  | .neginf, .nan => .nan
  | .nan, _ => .nan

/-- `np.sqrt` over numpy float64 values. -/
noncomputable def pySqrt : PyFloat → PyFloat
  | .fin x => if x < 0 then .nan else .fin (Real.sqrt x)
  | .inf => .inf
  | .neginf => .nan
  | .nan => .nan

/-- Line 171 under numpy float64 semantics:
`np.sqrt((2 * annual_demand * ordering_cost) / (unit_cost * carrying_cost_rate))`. -/
noncomputable def eoq_numpy (d s c r : PyFloat) : PyFloat :=
  pySqrt (pyDiv (pyMul (pyMul (.fin 2) d) s) (pyMul c r))

/-- The outcome of evaluating a Python expression: either an exception
propagates, or evaluation completes with a float value. -/
inductive PyOutcome where
  | raised : PyOutcome
  | value : PyFloat → PyOutcome

/-- How the EOQ assignment of `optimize_order_quantities` terminates.  Every
operand of line 171 is a numpy scalar (pandas sums and `.loc` reads), and
numpy float64 arithmetic never raises on zero divisors — it warns and returns
±inf/NaN — so the evaluation always completes with a value. -/
noncomputable def eoq_outcome (d s c r : PyFloat) : PyOutcome :=
  .value (eoq_numpy d s c r)

/-- A heap of python objects of type `α`, addressed by object identity. -/
abbrev Store (α : Type) : Type := List (Nat × α)

/-- Dereference an object id. -/
def readT {α : Type} (s : Store α) (i : Nat) : Option α := List.lookup i s

/-- An id not yet used by any object of the store. -/
def freshId {α : Type} (s : Store α) : Nat := (s.map Prod.fst).foldr Nat.max 0 + 1

/-- Overwrite the object at id `i` in place. -/
def writeT {α : Type} (s : Store α) (i : Nat) (v : α) : Store α :=
  s.map fun e => if e.1 = i then (e.1, v) else e

/-- An order frame together with dynamically added integer columns, the
mutation granularity of `enriched['hour'] = ...`. -/
structure DynTable where
  rows : List OrderRow
  extra : List (String × List Nat)
deriving DecidableEq

/-- In-place column assignment `t[name] = vals` (replaces the column if it
already exists). -/
def setCol (t : DynTable) (name : String) (vals : List Nat) : DynTable :=
  ⟨t.rows, (t.extra.filter fun cdata => cdata.1 ≠ name) ++ [(name, vals)]⟩

/-- The `hour` column derived from the timestamps. -/
def hourCol (rows : List OrderRow) : List Nat := rows.map fun o => hourOf o.timestamp

/-- The `day_of_week` column derived from the timestamps. -/
def dowCol (rows : List OrderRow) : List Nat := rows.map fun o => dowOf o.timestamp

/-- `_enrich_order_data` at the heap level, tracking which objects are
written: `enriched = orders_df.copy()` allocates a fresh object, the two
column assignments write that fresh object only, and the merge builds a new
frame; the input object `h` is never written. -/
def enrich_order_data_heap (s : Store DynTable) (h : Nat) :
    Store DynTable × List EnrichedOrder :=
  match readT s h with
  | none => (s, [])
  | some t =>
    let i := freshId s
    let s1 : Store DynTable := (i, t) :: s
    let s2 := writeT s1 i (setCol t ("hour") (hourCol t.rows))
    let s3 := writeT s2 i (setCol (setCol t ("hour") (hourCol t.rows))
      ("day_of_week") (dowCol t.rows))
    (s3, enrich_order_data t.rows)

/-- `process_orders` at the heap level: enrichment is the only stage that
touches the heap; scoring and the inventory summary are pure reads of the
enriched value. -/
def process_orders_heap (detect : List (List ℚ) → List Int)
    (s : Store DynTable) (h : Nat) : Store DynTable × ProcessResult :=
  let step := enrich_order_data_heap s h
  (step.1, ⟨detect_fraud detect step.2, analyze_inventory_impact step.2⟩)

/-- `forecast_demand` at the heap level: the body only reads the input frame
(groupby/polyfit allocate fresh intermediates), so the store is returned
untouched. -/
def forecast_demand_heap (s : Store (List HistRow)) (h : Nat) (p : Nat) :
    Store (List HistRow) × List (Nat × List ℚ) :=
  (s, match readT s h with
      | some hist => forecast_demand hist p
      | none => [])

/-- `calculate_reorder_points` at the heap level: pure reads only. -/
noncomputable def calculate_reorder_points_heap (cfg : InvConfig)
    (si : Store (List InvRow)) (hi : Nat)
    (sh : Store (List SaleRow)) (hh : Nat) :
    (Store (List InvRow) × Store (List SaleRow)) × List (Nat × RPInfo) :=
  ((si, sh), match readT si hi, readT sh hh with
             | some inv, some hist => calculate_reorder_points cfg inv hist
             | _, _ => [])

/-- `optimize_order_quantities` at the heap level: pure reads only. -/
noncomputable def optimize_order_quantities_heap
    (si : Store (List InvRow)) (hi : Nat)
    (sh : Store (List SaleRow)) (hh : Nat) (r : ℝ) :
    (Store (List InvRow) × Store (List SaleRow)) × List (Nat × OptQ) :=
  ((si, sh), match readT si hi, readT sh hh with
             | some inv, some hist => optimize_order_quantities inv hist r
             | _, _ => [])

/-- `generate_inventory_report` at the heap level: pure reads only. -/
noncomputable def generate_inventory_report_heap (cfg : InvConfig)
    (si : Store (List InvRow)) (hi : Nat)
    (sh : Store (List SaleRow)) (hh : Nat) :
    (Store (List InvRow) × Store (List SaleRow)) × Option InventoryReport :=
  ((si, sh), match readT si hi, readT sh hh with
             | some inv, some hist => some (generate_inventory_report cfg inv hist)
             | _, _ => none)

/-- A stand-in anomaly scorer used by concrete witnesses: it marks every
order as normal (sentinel `1`), one score per input row. -/
def constOneDetect : List (List ℚ) → List Int := fun l => l.map fun _ => 1

/-- A small concrete order table: two orders by the same customer. -/
def exOrders : List OrderRow :=
  [⟨1, 10, [3], 100, 3600⟩, ⟨2, 10, [4], 300, 90000⟩]

/-- A concrete order table for the top-5 tie-break: products 2 and 1 each
appear in exactly one order, product 2 first in input order. -/
def exOrders9 : List OrderRow :=
  [⟨1, 1, [2], 10, 0⟩, ⟨2, 2, [1], 10, 0⟩]

/-- A concrete forecasting history: one row, category 7. -/
def exHist : List HistRow := [⟨0, 7, 10⟩]

/-- A concrete sales history: two rows on the same date for two products, so
the table has 2 rows but a 1-day window. -/
noncomputable def exHist4 : List SaleRow := [⟨1, 5, 10⟩, ⟨2, 5, 20⟩]

/-- A concrete one-row inventory table for product 1. -/
noncomputable def exInv4 : List InvRow := [⟨1, 0, 3, 50, 100⟩]

/-- A concrete heap holding one order table at id 0. -/
def exStore : Store DynTable := [(0, ⟨exOrders, []⟩)]

/-- The ordering realised by `nlargest(5, 'order_id')` on the grouped demand
frame: strictly larger counts first, ties in ascending product order (which is
frame order after the sorted groupby). -/
def countTie (a b : Nat × Nat) : Prop := b.2 < a.2 ∨ (a.2 = b.2 ∧ a.1 < b.1)


theorem mem_insertUniqNat (a x : Nat) (l : List Nat) :
    a ∈ insertUniqNat x l ↔ a = x ∨ a ∈ l := by
  induction l with
  | nil => simp [insertUniqNat]
  | cons y t ih =>
    by_cases h1 : x = y
    · simp [insertUniqNat, h1]
    · by_cases h2 : x < y
      · simp [insertUniqNat, h1, h2]
      · simp [insertUniqNat, h1, h2, ih]
        tauto

theorem pairwise_insertUniqNat (x : Nat) (l : List Nat)
    (h : l.Pairwise (· < ·)) : (insertUniqNat x l).Pairwise (· < ·) := by
  induction l with
  | nil => simp [insertUniqNat]
  | cons y t ih =>
    rcases List.pairwise_cons.mp h with ⟨hy, ht⟩
    by_cases h1 : x = y
    · simpa [insertUniqNat, h1] using h
    · by_cases h2 : x < y
      · simp only [insertUniqNat, if_neg h1, if_pos h2]
        refine List.pairwise_cons.mpr ⟨?_, h⟩
        intro b hb
        rcases List.mem_cons.mp hb with rfl | hbt
        · exact h2
        · exact lt_trans h2 (hy b hbt)
      · have hyx : y < x := by omega
        simp only [insertUniqNat, if_neg h1, if_neg h2]
        refine List.pairwise_cons.mpr ⟨?_, ih ht⟩
        intro b hb
        rcases (mem_insertUniqNat b x t).mp hb with rfl | hbt
        · exact hyx
        · exact hy b hbt

theorem pairwise_sortedKeys (l : List Nat) : (sortedKeys l).Pairwise (· < ·) := by
  induction l with
  | nil => simp [sortedKeys]
  | cons x t ih => exact pairwise_insertUniqNat x _ ih

theorem mem_sortedKeys (a : Nat) (l : List Nat) : a ∈ sortedKeys l ↔ a ∈ l := by
  induction l with
  | nil => simp [sortedKeys]
  | cons x t ih =>
    rw [show sortedKeys (x :: t) = insertUniqNat x (sortedKeys t) from rfl,
      mem_insertUniqNat]
    simp [ih]

theorem filter_eq_singleton_of_sorted {l : List Nat} (hp : l.Pairwise (· < ·))
    {c : Nat} (hc : c ∈ l) : l.filter (fun k => k = c) = [c] := by
  induction l with
  | nil => simp at hc
  | cons k t ih =>
    rcases List.pairwise_cons.mp hp with ⟨hk, ht⟩
    rcases List.mem_cons.mp hc with rfl | hct
    · have hnil : t.filter (fun x => x = c) = [] := by
        rw [List.filter_eq_nil_iff]
        intro a ha
        have h2 := hk a ha
        simp only [decide_eq_true_eq]
        omega
      simp [List.filter_cons, hnil]
    · have hkc : k ≠ c := by
        have := hk c hct
        omega
      simp [List.filter_cons, hkc, ih ht hct]

theorem customer_history_filter (orders : List OrderRow) (c : Nat)
    (hc : c ∈ orders.map OrderRow.customer_id) :
    (customer_history orders).filter (fun h => h.1 = c) =
      [(c, customer_count orders c, customer_mean orders c)] := by
  unfold customer_history
  rw [List.filter_map]
  have hmem : c ∈ sortedKeys (orders.map OrderRow.customer_id) :=
    (mem_sortedKeys c _).mpr hc
  have hfil : (sortedKeys (orders.map OrderRow.customer_id)).filter
      (fun k => k = c) = [c] :=
    filter_eq_singleton_of_sorted (pairwise_sortedKeys _) hmem
  have hfun : ((fun h : Nat × Nat × ℚ => decide (h.1 = c)) ∘
      fun k => (k, customer_count orders k, customer_mean orders k)) =
      fun k => decide (k = c) := by
    funext k
    simp [Function.comp]
  rw [hfun, hfil]
  simp

theorem flatMap_eq_map_of_singleton {α β : Type} {l : List α} {F : α → List β}
    {g : α → β} (h : ∀ a ∈ l, F a = [g a]) : l.flatMap F = l.map g := by
  induction l with
  | nil => simp
  | cons x t ih =>
    have hx := h x (by simp)
    have ht : ∀ a ∈ t, F a = [g a] := fun a ha => h a (by simp [ha])
    simp [hx, ih ht]

theorem enrich_eq_map (orders : List OrderRow) :
    enrich_order_data orders = orders.map (enrichRow orders) := by
  unfold enrich_order_data
  apply flatMap_eq_map_of_singleton
  intro o ho
  rw [customer_history_filter orders o.customer_id
    (List.mem_map_of_mem OrderRow.customer_id ho)]
  rfl

/-- C1: the enrichment step drops no row, adds no row and keeps the input
order — it equals a per-row map over the input — and the fraud scores of
`process_orders` form a sequence of length N whose i-th entry is the score of
the i-th input order's feature vector. -/
theorem process_orders_row_alignment (detect : List (List ℚ) → List Int)
    (hdet : ∀ l, (detect l).length = l.length) (orders : List OrderRow) :
    enrich_order_data orders = orders.map (enrichRow orders) ∧
    (process_orders detect orders).fraud_detection.length = orders.length ∧
    (process_orders detect orders).fraud_detection =
      detect ((orders.map (enrichRow orders)).map featuresOf) := by
  refine ⟨enrich_eq_map orders, ?_, ?_⟩
  · show (detect_fraud detect (enrich_order_data orders)).length = orders.length
    rw [detect_fraud, hdet, List.length_map, enrich_eq_map, List.length_map]
  · show detect_fraud detect (enrich_order_data orders) = _
    rw [detect_fraud, enrich_eq_map]

/-- Witness for C1: the length-preserving stand-in scorer on a concrete
two-order table. -/
theorem process_orders_row_alignment_witness :
    (∀ l : List (List ℚ), (constOneDetect l).length = l.length) ∧
    (process_orders constOneDetect exOrders).fraud_detection.length =
      exOrders.length :=
  ⟨fun l => by simp [constOneDetect],
   (process_orders_row_alignment constOneDetect
      (fun l => by simp [constOneDetect]) exOrders).2.1⟩

/-- C2: for every inventory row the recommendation loop emits exactly the
spec's case analysis — REORDER at the EOQ (HIGH at zero stock, else MEDIUM)
when stock is at or below the reorder point, else REDUCE by the excess at LOW
when stock exceeds the maximum level, else nothing, with REORDER taking
precedence — i.e. the loop equals `filterMap` of the spec's per-product rule. -/
theorem recommendations_match_spec (rp oq : Nat → ℝ) (inv : List InvRow) :
    generate_recommendations rp oq inv = inv.filterMap (specRecommendation rp oq) := by
  induction inv with
  | nil => simp [generate_recommendations]
  | cons row rest ih =>
    rw [List.filterMap_cons]
    by_cases h1 : row.quantity_on_hand ≤ rp row.product
    · simp [generate_recommendations, specRecommendation, h1, ih]
    · by_cases h2 : row.max_stock_level < row.quantity_on_hand
      · simp [generate_recommendations, specRecommendation, h1, h2, ih]
      · simp [generate_recommendations, specRecommendation, h1, h2, ih]

/-- C3: the subscription analysis returns exactly the three documented fields,
with `active_subscriptions` equal to the number of subscription records, and
the whole result determined by the subscription list through the two pure
scoring functions (no other state, no I/O). -/
theorem subscription_metrics_shape {σ : Type} (churn health : List σ → ℚ)
    (subs : List σ) :
    (analyze_subscription_patterns churn health subs).active_subscriptions =
      subs.length ∧
    analyze_subscription_patterns churn health subs =
      ⟨subs.length, churn subs, health subs⟩ :=
  ⟨rfl, rfl⟩

theorem mem_insertCountDesc (a x : Nat × Nat) (l : List (Nat × Nat)) :
    a ∈ insertCountDesc x l ↔ a = x ∨ a ∈ l := by
  induction l with
  | nil => simp [insertCountDesc]
  | cons y t ih =>
    by_cases h : y.2 ≤ x.2
    · simp [insertCountDesc, h]
    · simp [insertCountDesc, h, ih]
      tauto

theorem pairwise_insertCountDesc (x : Nat × Nat) (l : List (Nat × Nat))
    (hx : ∀ y ∈ l, x.1 < y.1) (hl : l.Pairwise countTie) :
    (insertCountDesc x l).Pairwise countTie := by
  induction l with
  | nil => simp [insertCountDesc]
  | cons y t ih =>
    rcases List.pairwise_cons.mp hl with ⟨hy, ht⟩
    by_cases h : y.2 ≤ x.2
    · simp only [insertCountDesc, if_pos h]
      refine List.pairwise_cons.mpr ⟨?_, hl⟩
      intro z hz
      show z.2 < x.2 ∨ (x.2 = z.2 ∧ x.1 < z.1)
      rcases List.mem_cons.mp hz with rfl | hzt
      · rcases lt_or_eq_of_le h with h' | h'
        · exact Or.inl h'
        · exact Or.inr ⟨h'.symm, hx z (by simp)⟩
      · have hyz := hy z hzt
        have hz2 : z.2 ≤ x.2 := by
          rcases hyz with h' | ⟨h', _⟩
          · omega
          · omega
        rcases lt_or_eq_of_le hz2 with h' | h'
        · exact Or.inl h'
        · exact Or.inr ⟨h'.symm, hx z (List.mem_cons_of_mem y hzt)⟩
    · simp only [insertCountDesc, if_neg h]
      refine List.pairwise_cons.mpr
        ⟨?_, ih (fun z hz => hx z (List.mem_cons_of_mem y hz)) ht⟩
      intro z hz
      show z.2 < y.2 ∨ (y.2 = z.2 ∧ y.1 < z.1)
      rcases (mem_insertCountDesc z x t).mp hz with rfl | hzt
      · exact Or.inl (by omega)
      · exact hy z hzt

theorem mem_sortCountDesc (a : Nat × Nat) (l : List (Nat × Nat)) :
    a ∈ sortCountDesc l ↔ a ∈ l := by
  induction l with
  | nil => simp [sortCountDesc]
  | cons x t ih =>
    rw [show sortCountDesc (x :: t) = insertCountDesc x (sortCountDesc t) from rfl,
      mem_insertCountDesc]
    simp [ih]

theorem pairwise_sortCountDesc (l : List (Nat × Nat))
    (h : l.Pairwise (fun a b => a.1 < b.1)) :
    (sortCountDesc l).Pairwise countTie := by
  induction l with
  | nil => simp [sortCountDesc]
  | cons x t ih =>
    rcases List.pairwise_cons.mp h with ⟨hx, ht⟩
    exact pairwise_insertCountDesc x (sortCountDesc t)
      (fun y hy => hx y ((mem_sortCountDesc y t).mp hy)) (ih ht)

theorem grouped_demand_key_sorted (rows : List EnrichedOrder) :
    (grouped_demand rows).Pairwise (fun a b => a.1 < b.1) := by
  unfold grouped_demand
  rw [List.pairwise_map]
  exact pairwise_sortedKeys _

theorem grouped_demand_mem (rows : List EnrichedOrder) (a : Nat × Nat)
    (ha : a ∈ grouped_demand rows) :
    a.2 = (exploded_products rows).count a.1 := by
  unfold grouped_demand at ha
  rcases List.mem_map.mp ha with ⟨k, hk, rfl⟩
  rfl

theorem exploded_enrich (orders : List OrderRow) :
    exploded_products (enrich_order_data orders) =
      orders.flatMap OrderRow.products := by
  rw [enrich_eq_map]
  unfold exploded_products
  rw [List.flatMap_map]
  rfl

/-- C9 (amended): the `high_demand_products` list of `process_orders` has at
most 5 entries, is sorted by strictly descending order count, and breaks
count ties by ascending product identifier (the grouped frame's key order) —
not by first occurrence in the input. -/
theorem high_demand_top5_order (detect : List (List ℚ) → List Int)
    (orders : List OrderRow) :
    (process_orders detect orders).inventory_impact.high_demand_products.length ≤ 5 ∧
    (process_orders detect orders).inventory_impact.high_demand_products.Pairwise
      (fun a b => demand_count orders b < demand_count orders a ∨
        (demand_count orders a = demand_count orders b ∧ a < b)) := by
  constructor
  · show (((sortCountDesc (grouped_demand (enrich_order_data orders))).take 5).map
      Prod.fst).length ≤ 5
    rw [List.length_map, List.length_take]
    exact min_le_left _ _
  · show (((sortCountDesc (grouped_demand (enrich_order_data orders))).take 5).map
      Prod.fst).Pairwise _
    rw [List.pairwise_map]
    have h1 : (sortCountDesc (grouped_demand (enrich_order_data orders))).Pairwise
        countTie :=
      pairwise_sortCountDesc _ (grouped_demand_key_sorted _)
    have h2 : ((sortCountDesc (grouped_demand (enrich_order_data orders))).take
        5).Pairwise countTie :=
      h1.sublist (List.take_sublist 5 _)
    refine List.Pairwise.imp_of_mem ?_ h2
    intro a b ha hb hab
    have hmema : a ∈ grouped_demand (enrich_order_data orders) :=
      (mem_sortCountDesc a _).mp (List.mem_of_mem_take ha)
    have hmemb : b ∈ grouped_demand (enrich_order_data orders) :=
      (mem_sortCountDesc b _).mp (List.mem_of_mem_take hb)
    have ha2 : a.2 = demand_count orders a.1 := by
      rw [grouped_demand_mem _ a hmema, exploded_enrich]
      rfl
    have hb2 : b.2 = demand_count orders b.1 := by
      rw [grouped_demand_mem _ b hmemb, exploded_enrich]
      rfl
    show demand_count orders b.1 < demand_count orders a.1 ∨
      (demand_count orders a.1 = demand_count orders b.1 ∧ a.1 < b.1)
    rw [← ha2, ← hb2]
    exact hab

/-- C9 counterexample: in `exOrders9` products 2 and 1 are tied with one
order each and product 2 occurs first in the input, yet the top-5 list is
`[1, 2]` — the tie is broken by ascending product id, not by input order as
the claim states. -/
theorem high_demand_tiebreak_counterexample :
    exOrders9.flatMap OrderRow.products = [2, 1] ∧
    demand_count exOrders9 1 = demand_count exOrders9 2 ∧
    (process_orders constOneDetect exOrders9).inventory_impact.high_demand_products
      = [1, 2] := by
  refine ⟨by decide, by decide, by decide⟩

theorem lookup_map_self {β : Type} (ks : List Nat) (g : Nat → β) (c : Nat) (v : β)
    (h : List.lookup c (ks.map fun k => (k, g k)) = some v) : v = g c := by
  induction ks with
  | nil => simp at h
  | cons k t ih =>
    rw [List.map_cons] at h
    by_cases hc : c = k
    · subst hc
      simp [List.lookup] at h
      exact h.symm
    · have hb : (c == k) = false := by simp [hc]
      simp [List.lookup, hb] at h
      exact ih h

/-- C8: every category present in the forecast mapping is sent to a sequence
of length exactly `forecast_periods`; in particular a zero horizon yields the
empty sequence for every category. -/
theorem forecast_demand_length (hist : List HistRow) (p : Nat) (cat : Nat)
    (ys : List ℚ) (h : List.lookup cat (forecast_demand hist p) = some ys) :
    ys.length = p ∧ (p = 0 → ys = []) := by
  have hy : ys = forecastFor hist p cat := lookup_map_self _ _ _ _ h
  subst hy
  constructor
  · simp [forecastFor]
  · intro hp
    subst hp
    simp [forecastFor]

/-- Witness for C8: a one-row history for category 7 at horizon 0 maps the
category to the empty sequence. -/
theorem forecast_demand_length_witness :
    List.lookup 7 (forecast_demand exHist 0) = some ([] : List ℚ) ∧
    ([] : List ℚ).length = 0 :=
  ⟨by rfl, (forecast_demand_length exHist 0 7 [] (by rfl)).1⟩

theorem optimize_lookup (inv : List InvRow) (hist : List SaleRow) (r : ℝ)
    (p : Nat) (q : OptQ)
    (h : List.lookup p (optimize_order_quantities inv hist r) = some q) :
    ∃ row : InvRow, row.product = p ∧ q = optQRow hist r row := by
  induction inv with
  | nil => simp [optimize_order_quantities] at h
  | cons row rest ih =>
    unfold optimize_order_quantities at h
    rw [List.map_cons] at h
    by_cases hp : p = row.product
    · refine ⟨row, hp.symm, ?_⟩
      subst hp
      simp [List.lookup] at h
      exact h.symm
    · have hb : (p == row.product) = false := by simp [hp]
      simp [List.lookup, hb] at h
      exact ih h

/-- C4 (amended): the `annual_demand` field produced by
`optimize_order_quantities` equals the product's total historical quantity
times `365` divided by the number of rows of the entire sales-history table
(`len(sales_history)`), which matches the window length in days only when the
table holds exactly one row per day. -/
theorem annual_demand_row_count (inv : List InvRow) (hist : List SaleRow) (r : ℝ)
    (p : Nat) (q : OptQ) (_hne : hist ≠ [])
    (h : List.lookup p (optimize_order_quantities inv hist r) = some q) :
    q.annual_demand =
      ((hist.filter fun s => s.product = p).map SaleRow.quantity).sum *
        (365 / (hist.length : ℝ)) := by
  rcases optimize_lookup inv hist r p q h with ⟨row, hrp, rfl⟩
  show annual_demand hist row.product = _
  rw [hrp]
  rfl

/-- C4 counterexample: with two same-day rows for two different products the
table has 2 rows but a 1-day window; the code computes `10 × 365 / 2 = 1825`
for product 1 while the spec's `365 / window-days` formula gives `3650`. -/
theorem annual_demand_counterexample :
    annual_demand exHist4 1 = 1825 ∧ annual_demand_spec exHist4 1 = 3650 ∧
    (1825 : ℝ) ≠ 3650 := by
  refine ⟨?_, ?_, by norm_num⟩
  · simp [annual_demand, exHist4, List.filter_cons]
    norm_num
  · simp [annual_demand_spec, exHist4, List.filter_cons, sortedKeys, insertUniqNat]
    norm_num

/-- Witness for C4 at a concrete one-product inventory and two-row history. -/
theorem annual_demand_row_count_witness :
    exHist4 ≠ [] ∧
    List.lookup 1 (optimize_order_quantities exInv4 exHist4 (1/5)) =
      some (optQRow exHist4 (1/5) ⟨1, 0, 3, 50, 100⟩) ∧
    (optQRow exHist4 (1/5) ⟨1, 0, 3, 50, 100⟩).annual_demand =
      ((exHist4.filter fun s => s.product = 1).map SaleRow.quantity).sum *
        (365 / (exHist4.length : ℝ)) :=
  ⟨by simp [exHist4], rfl,
   annual_demand_row_count exInv4 exHist4 (1/5) 1 _ (by simp [exHist4]) rfl⟩

/-- C5: with all of annual demand, ordering cost, unit cost and carrying rate
positive, the total annual cost is strictly larger at half the EOQ and at
twice the EOQ than at the EOQ itself — the EOQ is the cost minimiser. -/
theorem total_cost_minimized_at_eoq (D S c r : ℝ)
    (hD : 0 < D) (hS : 0 < S) (hc : 0 < c) (hr : 0 < r) :
    calculate_total_cost D ((1/2) * eoq D S c r) S c r >
      calculate_total_cost D (eoq D S c r) S c r ∧
    calculate_total_cost D (2 * eoq D S c r) S c r >
      calculate_total_cost D (eoq D S c r) S c r := by
  have hx : 0 < 2 * D * S / (c * r) := by positivity
  have he : 0 < eoq D S c r := Real.sqrt_pos.mpr hx
  have hne0 : eoq D S c r ≠ 0 := ne_of_gt he
  have he2 : eoq D S c r ^ 2 = 2 * D * S / (c * r) := Real.sq_sqrt hx.le
  have hcr : 0 < c * r := mul_pos hc hr
  have hDS : D * S = eoq D S c r ^ 2 * (c * r) / 2 := by
    rw [he2]
    field_simp
    ring
  have hpos : 0 < eoq D S c r ^ 2 * (c * r) := by
    have := mul_pos (mul_pos he he) hcr
    calc (0:ℝ) < eoq D S c r * eoq D S c r * (c * r) := this
    _ = eoq D S c r ^ 2 * (c * r) := by ring
  have hquot : 0 < eoq D S c r ^ 2 * (c * r) / (4 * eoq D S c r) :=
    div_pos hpos (by linarith)
  constructor
  · unfold calculate_total_cost
    rw [gt_iff_lt, ← sub_pos]
    have hstep : D / ((1/2) * eoq D S c r) * S + ((1/2) * eoq D S c r) / 2 * c * r -
        (D / eoq D S c r * S + eoq D S c r / 2 * c * r) =
        eoq D S c r ^ 2 * (c * r) / (4 * eoq D S c r) := by
      have h1 : D / ((1/2) * eoq D S c r) * S = (D * S) / ((1/2) * eoq D S c r) := by
        ring
      have h2 : D / eoq D S c r * S = (D * S) / eoq D S c r := by
        ring
      rw [h1, h2, hDS]
      field_simp
      ring
    rw [hstep]
    exact hquot
  · unfold calculate_total_cost
    rw [gt_iff_lt, ← sub_pos]
    have hstep : D / (2 * eoq D S c r) * S + (2 * eoq D S c r) / 2 * c * r -
        (D / eoq D S c r * S + eoq D S c r / 2 * c * r) =
        eoq D S c r ^ 2 * (c * r) / (4 * eoq D S c r) := by
      have h1 : D / (2 * eoq D S c r) * S = (D * S) / (2 * eoq D S c r) := by
        ring
      have h2 : D / eoq D S c r * S = (D * S) / eoq D S c r := by
        ring
      rw [h1, h2, hDS]
      field_simp
      ring
    rw [hstep]
    exact hquot

/-- Witness for C5 at `D = S = c = r = 1`. -/
theorem total_cost_minimized_at_eoq_witness :
    (0:ℝ) < 1 ∧
    calculate_total_cost 1 ((1/2) * eoq 1 1 1 1) 1 1 1 >
      calculate_total_cost 1 (eoq 1 1 1 1) 1 1 1 ∧
    calculate_total_cost 1 (2 * eoq 1 1 1 1) 1 1 1 >
      calculate_total_cost 1 (eoq 1 1 1 1) 1 1 1 :=
  ⟨by norm_num,
   (total_cost_minimized_at_eoq 1 1 1 1 (by norm_num) (by norm_num) (by norm_num)
      (by norm_num)).1,
   (total_cost_minimized_at_eoq 1 1 1 1 (by norm_num) (by norm_num) (by norm_num)
      (by norm_num)).2⟩

/-- C6: with positive ordering cost, unit cost and carrying rate, doubling the
ordering cost multiplies the EOQ of `optimize_order_quantities` by √2, and
doubling the unit cost multiplies it by 1/√2, all other inputs fixed. -/
theorem eoq_scale_consistent (hist : List SaleRow) (p : Nat) (S c r : ℝ)
    (_hS : 0 < S) (_hc : 0 < c) (_hr : 0 < r) :
    eoq (annual_demand hist p) (2 * S) c r =
      Real.sqrt 2 * eoq (annual_demand hist p) S c r ∧
    eoq (annual_demand hist p) S (2 * c) r =
      (Real.sqrt 2)⁻¹ * eoq (annual_demand hist p) S c r := by
  constructor
  · unfold eoq
    rw [show 2 * annual_demand hist p * (2 * S) / (c * r) =
        2 * (2 * annual_demand hist p * S / (c * r)) by ring]
    exact Real.sqrt_mul (by norm_num) _
  · unfold eoq
    have harg : 2 * annual_demand hist p * S / ((2 * c) * r) =
        (2 * annual_demand hist p * S / (c * r)) / 2 := by
      rw [div_div]
      congr 1
      ring
    rw [harg]
    rcases le_or_lt 0 (2 * annual_demand hist p * S / (c * r)) with hA | hA
    · rw [Real.sqrt_div hA, eq_comm, inv_mul_eq_div]
    · have h1 : Real.sqrt (2 * annual_demand hist p * S / (c * r) / 2) = 0 := by
        rw [Real.sqrt_eq_zero']
        linarith
      have h2 : Real.sqrt (2 * annual_demand hist p * S / (c * r)) = 0 := by
        rw [Real.sqrt_eq_zero']
        linarith
      rw [h1, h2, mul_zero]

/-- Witness for C6 on a concrete history and positive costs. -/
theorem eoq_scale_consistent_witness :
    (0:ℝ) < 4 ∧ (0:ℝ) < 3 ∧ (0:ℝ) < 2 ∧
    eoq (annual_demand exHist4 1) (2 * 4) 3 2 =
      Real.sqrt 2 * eoq (annual_demand exHist4 1) 4 3 2 ∧
    eoq (annual_demand exHist4 1) 4 (2 * 3) 2 =
      (Real.sqrt 2)⁻¹ * eoq (annual_demand exHist4 1) 4 3 2 :=
  ⟨by norm_num, by norm_num, by norm_num,
   (eoq_scale_consistent exHist4 1 4 3 2 (by norm_num) (by norm_num) (by norm_num)).1,
   (eoq_scale_consistent exHist4 1 4 3 2 (by norm_num) (by norm_num) (by norm_num)).2⟩

/-- C7 counterexample: at annual demand 1825, ordering cost 50, unit cost 0
and carrying rate 1/5 the EOQ expression of line 171 completes and returns
the numeric value +inf (numpy warns and yields `inf` on a zero divisor) — no
division-by-zero error propagates to the caller. -/
theorem eoq_zero_unit_cost_counterexample :
    eoq_outcome (.fin 1825) (.fin 50) (.fin 0) (.fin (1/5)) =
      PyOutcome.value PyFloat.inf ∧
    PyOutcome.value PyFloat.inf ≠ PyOutcome.raised := by
  constructor
  · unfold eoq_outcome eoq_numpy
    norm_num [pyMul, pyDiv, pySqrt]
  · intro h
    exact PyOutcome.noConfusion h

/-- C7 (amended): with a zero unit cost or a zero carrying-cost rate (and
positive annual demand and ordering cost) the EOQ divisor is zero, and under
numpy float64 semantics the call does not fail: it completes and the
product's eoq is the non-finite numeric value +inf. -/
theorem eoq_zero_divisor_returns_inf (D S c r : ℝ) (hD : 0 < D) (hS : 0 < S) :
    eoq_outcome (.fin D) (.fin S) (.fin 0) (.fin r) = .value PyFloat.inf ∧
    eoq_outcome (.fin D) (.fin S) (.fin c) (.fin 0) = .value PyFloat.inf := by
  have hpos : 0 < 2 * D * S := by positivity
  have h1 : pyMul (pyMul (.fin 2) (.fin D)) (.fin S) = PyFloat.fin (2 * D * S) := rfl
  have hdiv : pyDiv (PyFloat.fin (2 * D * S)) (PyFloat.fin 0) = PyFloat.inf := by
    simp [pyDiv, hpos]
  constructor
  · have h2 : pyMul (PyFloat.fin 0) (.fin r) = PyFloat.fin 0 := by
      simp [pyMul]
    unfold eoq_outcome eoq_numpy
    rw [h1, h2, hdiv]
    rfl
  · have h2 : pyMul (PyFloat.fin c) (.fin 0) = PyFloat.fin 0 := by
      simp [pyMul]
    unfold eoq_outcome eoq_numpy
    rw [h1, h2, hdiv]
    rfl

/-- Witness for C7 at demand 1825, ordering cost 50, unit cost 3, zero rate. -/
theorem eoq_zero_divisor_returns_inf_witness :
    (0:ℝ) < 1825 ∧ (0:ℝ) < 50 ∧
    eoq_outcome (.fin 1825) (.fin 50) (.fin 3) (.fin 0) =
      PyOutcome.value PyFloat.inf :=
  ⟨by norm_num, by norm_num,
   (eoq_zero_divisor_returns_inf 1825 50 3 7 (by norm_num) (by norm_num)).2⟩

theorem lookup_writeT_ne {α : Type} (s : Store α) (i h : Nat) (v : α)
    (hne : i ≠ h) : readT (writeT s i v) h = readT s h := by
  induction s with
  | nil => rfl
  | cons e t ih =>
    rw [show writeT (e :: t) i v =
      (if e.1 = i then (e.1, v) else e) :: writeT t i v from rfl]
    by_cases hkey : h = e.1
    · have hne2 : ¬ e.1 = i := by omega
      rw [if_neg hne2]
      subst hkey
      simp [readT, List.lookup]
    · have hb : (h == e.1) = false := by simp [hkey]
      by_cases he : e.1 = i
      · rw [if_pos he]
        simp [readT, List.lookup, hb]
        exact ih
      · rw [if_neg he]
        simp [readT, List.lookup, hb]
        exact ih

theorem readT_some_lt_freshId {α : Type} (s : Store α) (h : Nat) (t : α)
    (hr : readT s h = some t) : h < freshId s := by
  induction s with
  | nil => simp [readT, List.lookup] at hr
  | cons e rest ih =>
    unfold freshId
    rw [List.map_cons, List.foldr_cons]
    by_cases hkey : h = e.1
    · have hle : e.1 ≤ Nat.max e.1 (List.foldr Nat.max 0 (List.map Prod.fst rest)) :=
        Nat.le_max_left _ _
      omega
    · have hb : (h == e.1) = false := by simp [hkey]
      have hr2 : readT rest h = some t := by
        simpa [readT, List.lookup, hb] using hr
      have hlt := ih hr2
      unfold freshId at hlt
      have hle : List.foldr Nat.max 0 (List.map Prod.fst rest) ≤
          Nat.max e.1 (List.foldr Nat.max 0 (List.map Prod.fst rest)) :=
        Nat.le_max_right _ _
      omega

theorem enrich_heap_frame (s : Store DynTable) (h : Nat) (t : DynTable)
    (hrd : readT s h = some t) :
    readT (enrich_order_data_heap s h).1 h = some t := by
  unfold enrich_order_data_heap
  rw [hrd]
  dsimp only
  have hlt : h < freshId s := readT_some_lt_freshId s h t hrd
  have hne : freshId s ≠ h := by omega
  rw [lookup_writeT_ne _ _ _ _ hne, lookup_writeT_ne _ _ _ _ hne]
  have hb : (h == freshId s) = false := by simp; omega
  simpa [readT, List.lookup, hb] using hrd

/-- C10: no public operation mutates its input tables.  `process_orders`
writes only the fresh copy allocated by `orders_df.copy()` (the heap cell of
the input table is unchanged after the call), and the forecasting and
inventory operations perform pure reads, returning their stores untouched. -/
theorem public_ops_no_mutation :
    (∀ (detect : List (List ℚ) → List Int) (s : Store DynTable) (h : Nat)
        (t : DynTable), readT s h = some t →
        readT (process_orders_heap detect s h).1 h = some t) ∧
    (∀ (s : Store (List HistRow)) (h p : Nat), (forecast_demand_heap s h p).1 = s) ∧
    (∀ (cfg : InvConfig) (si : Store (List InvRow)) (hi : Nat)
        (sh : Store (List SaleRow)) (hh : Nat),
        (calculate_reorder_points_heap cfg si hi sh hh).1 = (si, sh)) ∧
    (∀ (si : Store (List InvRow)) (hi : Nat) (sh : Store (List SaleRow))
        (hh : Nat) (r : ℝ),
        (optimize_order_quantities_heap si hi sh hh r).1 = (si, sh)) ∧
    (∀ (cfg : InvConfig) (si : Store (List InvRow)) (hi : Nat)
        (sh : Store (List SaleRow)) (hh : Nat),
        (generate_inventory_report_heap cfg si hi sh hh).1 = (si, sh)) := by
  refine ⟨?_, fun s h p => rfl, fun cfg si hi sh hh => rfl,
    fun si hi sh hh r => rfl, fun cfg si hi sh hh => rfl⟩
  intro detect s h t hrd
  exact enrich_heap_frame s h t hrd

/-- Witness for C10: a one-table heap, the input table still present intact
at its id after `process_orders`. -/
theorem public_ops_no_mutation_witness :
    readT exStore 0 = some (⟨exOrders, []⟩ : DynTable) ∧
    readT (process_orders_heap constOneDetect exStore 0).1 0 =
      some (⟨exOrders, []⟩ : DynTable) :=
  ⟨rfl, public_ops_no_mutation.1 constOneDetect exStore 0 ⟨exOrders, []⟩ rfl⟩
